import Mathlib

/-!
Members API, the user controller.

A shallow embedding of `src/api/controller/user/user.controller.js`
(`changePassword`, `changeProfileImage`, `deleteProfileImage`, `create`,
`updateOne`, `deleteOne`) over an explicit document store, followed by the
properties of the resource lifecycle and cascading cleanup.

Conventions of the embedding.

* A collection queried by an owner field is a list of rows; the `User`
  collection is keyed by `_id`, the primary key of the store.
* Every call that reaches the store is numbered in issue order, and a fault
  oracle `fault : Nat → Bool` says which calls reject. A rejected call leaves
  the store as it was.
* The media adapter's answers are inputs of the handlers.
-/

namespace MembersApi

/-! ## Values and documents -/

/-- An `ObjectId`. -/
abbrev Id := Nat

/-- A JavaScript value as it occurs in a parsed request body or a document field. -/
inductive Value where
  | null
  | bool (b : Bool)
  | num (n : Int)
  | str (s : String)
  deriving DecidableEq

/-- JavaScript truthiness, as used by `if (v)` and `v && ...`. -/
def Value.truthy : Value → Bool
  | .null => false
  | .bool b => b
  | .num n => n != 0
  | .str s => s != ""

/-- A plain object: field names with their values. A missing field reads as `undefined`. -/
abbrev Doc := List (String × Value)

/-- Reading `doc[key]`; `none` is `undefined`. -/
def Doc.get (doc : Doc) (key : String) : Option Value :=
  doc.lookup key

/-- The statement `delete doc[key]`. -/
def Doc.delete (doc : Doc) (key : String) : Doc :=
  doc.filter fun kv => kv.1 != key

/-- The assignment `doc[key] = value`. -/
def Doc.set (doc : Doc) (key : String) (value : Value) : Doc :=
  (key, value) :: doc.delete key

/-- Truthiness of an optional field: `undefined` is falsy. -/
def truthy? : Option Value → Bool
  | none => false
  | some v => v.truthy

/-- The update `$set` of every field of `patch`, as `findByIdAndUpdate` applies it. -/
def Doc.merge (doc patch : Doc) : Doc :=
  patch.foldl (fun d kv => d.set kv.1 kv.2) doc

/-! ## Rows and the store -/

/-- A row of Address, Company, Todo, Favorites, Cart, Album or Post: its `_id` and its owner. -/
structure Owned where
  _id : Id
  user : Id
  deriving DecidableEq

/-- A Photo row: its `_id` and the album it belongs to. -/
structure Photo where
  _id : Id
  album : Id
  deriving DecidableEq

/-- A Comment row: its `_id` and the post it belongs to. -/
structure Comment where
  _id : Id
  post : Id
  deriving DecidableEq

/-- The document store: one entry per model required by the controller. -/
structure Store where
  users : Id → Option Doc
  addresses : List Owned
  companies : List Owned
  todos : List Owned
  favorites : List Owned
  carts : List Owned
  albums : List Owned
  photos : List Photo
  posts : List Owned
  comments : List Comment

/-! ## Store primitives (Mongoose model methods) -/

/-- The query `Model.find(filter)`. -/
def find {α : Type} (filter : α → Bool) (rows : List α) : List α :=
  rows.filter filter

/-- The query `Model.deleteMany(filter)`: every matching row is removed. -/
def deleteMany {α : Type} (filter : α → Bool) (rows : List α) : List α :=
  rows.filter fun r => !filter r

/-- The query `Model.findOneAndDelete(filter)`: the first matching row is removed. -/
def findOneAndDelete {α : Type} (filter : α → Bool) (rows : List α) : List α :=
  rows.eraseP filter

/-- The query `Model.create(row)`: the row is appended. -/
def createRow {α : Type} (row : α) (rows : List α) : List α :=
  rows ++ [row]

/-- The query `User.findById(id)`. -/
def findById (users : Id → Option Doc) (id : Id) : Option Doc :=
  users id

/-- The query `User.findByIdAndDelete(id)`. -/
def findByIdAndDelete (users : Id → Option Doc) (id : Id) : Id → Option Doc :=
  fun i => if i = id then none else users i

/-- The query `User.findByIdAndUpdate(id, patch)`: the stored document, when there is one,
receives the fields of `patch`. -/
def findByIdAndUpdate (users : Id → Option Doc) (id : Id) (patch : Doc) : Id → Option Doc :=
  fun i => if i = id then (users i).map (Doc.merge · patch) else users i

/-- The write issued by `document.save()` for one modified path: the stored document,
when there is one, receives `change`. -/
def saveChange (users : Id → Option Doc) (id : Id) (change : Doc → Doc) : Id → Option Doc :=
  fun i => if i = id then (users i).map change else users i

/-! ## Outcomes -/

/-- How a handler ends when it does not answer 200. -/
inductive Failure where
  /-- The call `next(new ErrorResponseBuilder(message, statusCode))`. -/
  | next (message : String) (statusCode : Nat)
  /-- The call `next(new ErrorResponseBuilder(error))` with the error of a rejected promise. -/
  | nextError
  /-- An awaited promise rejected (store call number `call`) or an exception was thrown,
  and nothing caught it. -/
  | rejected (call : Nat)
  deriving DecidableEq

/-- A handler that stopped early: the store it leaves behind and why it stopped. -/
structure Abort where
  store : Store
  failure : Failure

/-- An awaited store call that writes: call number `k` either rejects, leaving the store alone,
or applies `effect`. -/
def call (fault : Nat → Bool) (k : Nat) (effect : Store → Store) (s : Store) :
    Except Abort Store :=
  if fault k then .error ⟨s, .rejected k⟩ else .ok (effect s)

/-- An awaited store call that reads: call number `k` either rejects or yields `value`. -/
def query {α : Type} (fault : Nat → Bool) (k : Nat) (s : Store) (value : α) :
    Except Abort α :=
  if fault k then .error ⟨s, .rejected k⟩ else .ok value

/-- The loop `for (const x of xs) { await body(x) }`, its calls numbered from `k`. -/
def forEach {α : Type} (fault : Nat → Bool) (body : α → Store → Store) :
    Nat → List α → Store → Except Abort Store
  | _, [], s => .ok s
  | k, x :: xs, s =>
    match call fault k (body x) s with
    | .error a => .error a
    | .ok s1 => forEach fault body (k + 1) xs s1

/-! ## `deleteOne` -/

/-- The handler `exports.deleteOne`, `DELETE /api/users/:id`, with `id = request.params.id`.
The result `.ok s` is the answer `200 { success: true }` with final store `s`. -/
def deleteOne (fault : Nat → Bool) (store : Store) (id : Id) : Except Abort Store := do
  let request_user ← query fault 0 store (findById store.users id)
  match request_user with
  | none => throw ⟨store, .next "User not found" 404⟩
  | some _ =>
    let s ← call fault 1 (fun s => { s with addresses := deleteMany (·.user == id) s.addresses }) store
    let s ← call fault 2 (fun s => { s with companies := deleteMany (·.user == id) s.companies }) s
    let s ← call fault 3 (fun s => { s with todos := deleteMany (·.user == id) s.todos }) s
    let s ← call fault 4 (fun s => { s with favorites := findOneAndDelete (·.user == id) s.favorites }) s
    let s ← call fault 5 (fun s => { s with carts := findOneAndDelete (·.user == id) s.carts }) s
    let albums ← query fault 6 s (find (·.user == id) s.albums)
    let s ←
      (if albums.length ≠ 0 then
        forEach fault (fun album s => { s with photos := deleteMany (·.album == album._id) s.photos })
          7 albums s
      else pure s)
    let s ← call fault (7 + albums.length)
      (fun s => { s with albums := deleteMany (·.user == id) s.albums }) s
    let posts ← query fault (8 + albums.length) s (find (·.user == id) s.posts)
    let s ←
      (if posts.length ≠ 0 then
        forEach fault (fun post s => { s with comments := deleteMany (·.post == post._id) s.comments })
          (9 + albums.length) posts s
      else pure s)
    let s ← call fault (9 + albums.length + posts.length)
      (fun s => { s with posts := deleteMany (·.user == id) s.posts }) s
    call fault (10 + albums.length + posts.length)
      (fun s => { s with users := findByIdAndDelete s.users id }) s

/-- The store a handler leaves behind, however it ended. -/
def storeAfter : Except Abort Store → Store
  | .ok s => s
  | .error a => a.store

/-- Whether the handler answered 200. -/
def answered : Except Abort Store → Bool
  | .ok _ => true
  | .error _ => false

/-- The fault oracle under which no call rejects. -/
def noFault : Nat → Bool := fun _ => false

/-- The fault oracle under which exactly call number `k` rejects. -/
def failAt (k : Nat) : Nat → Bool := fun i => i == k

/-- The loop `for (const x of xs) { await body(x) }` when no call rejects. -/
def purge {α β : Type} (filter : α → β → Bool) (xs : List α) (rows : List β) : List β :=
  xs.foldl (fun rows x => deleteMany (filter x) rows) rows

/-- The store `deleteOne` leaves behind when it answers 200. -/
def cascade (s : Store) (id : Id) : Store where
  users := findByIdAndDelete s.users id
  addresses := deleteMany (·.user == id) s.addresses
  companies := deleteMany (·.user == id) s.companies
  todos := deleteMany (·.user == id) s.todos
  favorites := findOneAndDelete (·.user == id) s.favorites
  carts := findOneAndDelete (·.user == id) s.carts
  albums := deleteMany (·.user == id) s.albums
  photos := purge (fun (album : Owned) (p : Photo) => p.album == album._id)
    (find (·.user == id) s.albums) s.photos
  posts := deleteMany (·.user == id) s.posts
  comments := purge (fun (post : Owned) (c : Comment) => c.post == post._id)
    (find (·.user == id) s.posts) s.comments

/-- `Holds P E r`: a run that yields a value yields one satisfying `P`, and a run that stops
early leaves a store satisfying `E`. -/
def Holds {α : Type} (P : α → Prop) (E : Store → Prop) : Except Abort α → Prop
  | .ok a => P a
  | .error a => E a.store

/-- A store `s` that a run of `deleteOne` on `s0` may stop in: the users are untouched, and an
album (post) of the user is removed only after its photos (comments). -/
structure Midway (s0 : Store) (id : Id) (s : Store) : Prop where
  users : s.users = s0.users
  albums : ∀ a ∈ s0.albums, a.user = id → a ∈ s.albums ∨ ∀ p ∈ s.photos, p.album ≠ a._id
  posts : ∀ a ∈ s0.posts, a.user = id → a ∈ s.posts ∨ ∀ c ∈ s.comments, c.post ≠ a._id
  photos : ∀ p ∈ s.photos, p ∈ s0.photos
  comments : ∀ c ∈ s.comments, c ∈ s0.comments

/-! ## Handlers on `request.user` -/

/-- What a handler does that can be observed from outside, in issue order. -/
inductive Event where
  /-- The call `cloudinary.uploader.upload(photo, { public_id, ... })`. -/
  | upload (public_id : String)
  /-- The call `cloudinary.uploader.destroy(public_id)`. -/
  | destroy (public_id : String)
  /-- The call `document.save()` on the document `doc` with `_id = id`. -/
  | save (id : Id) (doc : Doc)
  /-- The call `User.findByIdAndUpdate(id, patch, ...)`. -/
  | findByIdAndUpdate (id : Id) (patch : Doc)
  /-- The call `next(new ErrorResponseBuilder(message, statusCode))`. -/
  | next (message : String) (statusCode : Nat)
  /-- The answer `response.status(status).json(...)`. -/
  | respond (status : Nat)
  /-- The promise of the handler rejected: an awaited promise rejected or an exception was
  thrown, and nothing caught it. -/
  | uncaught
  deriving DecidableEq

/-- What a handler leaves behind: the store, the in-memory user document it worked on, and
its events. -/
structure Handled where
  store : Store
  user : Doc
  events : List Event

/-- The assignment `doc[key] = value` where `value` may be `undefined`. -/
def Doc.assign (doc : Doc) (key : String) : Option Value → Doc
  | none => doc.delete key
  | some v => doc.set key v

/-- The method `String.prototype.includes` on character lists. -/
def includesChars (sub : List Char) : List Char → Bool
  | [] => sub.isEmpty
  | c :: cs => sub.isPrefixOf (c :: cs) || includesChars sub cs

/-- The method `String.prototype.includes`. -/
def includes (s sub : String) : Bool :=
  includesChars sub.data s.data

/-- The handler `exports.changePassword`, `PUT /api/users/me/change_password`.
`matchPassword` is the method of the user model (`none`: its promise rejects) and `hash` the
transformation the model applies to a modified password on save. The save is not awaited:
it is store call number 0 and its rejection goes unnoticed. -/
def changePassword (matchPassword : Doc → Option Value → Option Bool) (hash : Value → Value)
    (fault : Nat → Bool) (store : Store) (uid : Id) (user : Doc) (body : Doc) : Handled :=
  match matchPassword user (body.get "currentPassword") with
  | none => ⟨store, user, [.uncaught]⟩
  | some false => ⟨store, user, [.next "Password is incorrect" 400]⟩
  | some true =>
    let user1 := user.assign "password" (body.get "newPassword")
    let store1 :=
      if fault 0 then store
      else { store with
        users := saveChange store.users uid
          fun d => d.assign "password" ((body.get "newPassword").map hash) }
    ⟨store1, user1, [.save uid user1, .respond 200]⟩

/-- The handler `exports.changeProfileImage`, `PUT /api/users/me/profile_image`.
`upload` is the adapter's answer: `some secure_url`, or `none` when the upload rejects.
The `.catch` of the upload calls `next` and returns from the callback only, so the update
of the user is issued in both cases (store call number 0). -/
def changeProfileImage (upload : Option String) (fault : Nat → Bool) (store : Store)
    (uid : Id) (user : Doc) : Handled :=
  let uploaded : List Event := [.upload (toString uid)]
  let profile_image : Value :=
    match upload with
    | some secure_url => .str secure_url
    | none => .null
  let caught : List Event :=
    match upload with
    | some _ => []
    | none => [.next "The user profile image could not be uploaded to the cloud" 400]
  let patch : Doc := [("photo", profile_image)]
  let issued := uploaded ++ caught ++ [.findByIdAndUpdate uid patch]
  if fault 0 then
    ⟨store, user, issued ++ [.next "An error occurred while updating the user" 400]⟩
  else
    match store.users uid with
    | none => ⟨store, user, issued ++ [.next "An error occurred while updating the user" 400]⟩
    | some _ =>
      ⟨{ store with users := findByIdAndUpdate store.users uid patch }, user,
        issued ++ [.respond 200]⟩

/-- The answer of `cloudinary.uploader.destroy`. -/
inductive Destroy where
  /-- The promise resolved with an object whose `result` field is `result`. -/
  | resolved (result : Option Value)
  /-- The promise rejected. -/
  | rejected
  deriving DecidableEq

/-- The condition `request.user.photo && request.user.photo.includes('/members-api/users_profiles/')`;
`none` when `photo` is truthy and not a string, where `includes` is not a function. -/
def managedPhoto (user : Doc) : Option Bool :=
  match user.get "photo" with
  | none => some false
  | some (.str photo) => some (photo != "" && includes photo "/members-api/users_profiles/")
  | some v => if v.truthy then none else some false

/-- The condition `response.result && response.result === 'ok'`. -/
def destroyed (result : Option Value) : Bool :=
  truthy? result && result == some (.str "ok")

/-- The tail of `deleteProfileImage`: `request.user.photo = undefined` and the awaited
`request.user.save()`, store call number 0. -/
def clearPhoto (fault : Nat → Bool) (store : Store) (uid : Id) (user : Doc)
    (before : List Event) : Handled :=
  let user1 := user.assign "photo" none
  if fault 0 then ⟨store, user1, before ++ [.save uid user1, .uncaught]⟩
  else
    ⟨{ store with users := saveChange store.users uid fun d => d.assign "photo" none }, user1,
      before ++ [.save uid user1, .respond 200]⟩

/-- The handler `exports.deleteProfileImage`, `DELETE /api/users/me/profile_image`. -/
def deleteProfileImage (destroy : Destroy) (fault : Nat → Bool) (store : Store) (uid : Id)
    (user : Doc) : Handled :=
  match managedPhoto user with
  | none => ⟨store, user, [.uncaught]⟩
  | some false => clearPhoto fault store uid user []
  | some true =>
    let public_id := "members-api/users_profiles/" ++ toString uid
    match destroy with
    | .rejected => ⟨store, user, [.destroy public_id, .uncaught]⟩
    | .resolved result =>
      let destroy_status := destroyed result
      if !destroy_status then
        ⟨store, user, [.destroy public_id,
          .next ("The user profile image could not be deleted with public id of " ++ toString uid)
            503]⟩
      else clearPhoto fault store uid user [.destroy public_id]

/-! ## Handlers on `request.params.id` -/

/-- The handler `exports.create`, `POST /api/users`. `newId`, `favId` and `cartId` are the
identifiers the store generates, and `persisted` is the document the user model stores for a
body. A rejection of any of the three calls ends in the `.catch` of the chain. -/
def create (persisted : Doc → Doc) (fault : Nat → Bool) (newId favId cartId : Id)
    (store : Store) (body : Doc) : Except Abort Store :=
  if fault 0 || (store.users newId).isSome then .error ⟨store, .nextError⟩
  else
    let s1 := { store with
      users := fun i => if i = newId then some (persisted body) else store.users i }
    if fault 1 then .error ⟨s1, .nextError⟩
    else
      let s2 := { s1 with favorites := createRow ⟨favId, newId⟩ s1.favorites }
      if fault 2 then .error ⟨s2, .nextError⟩
      else .ok { s2 with carts := createRow ⟨cartId, newId⟩ s2.carts }

/-- The condition `updated_data.password && updated_data.password !== request_user.password`. -/
def passwordChanges (updated_data request_user : Doc) : Bool :=
  truthy? (updated_data.get "password")
    && updated_data.get "password" != request_user.get "password"

/-- The handler `exports.updateOne`, `PUT /api/users/:id`. The handler has no `next`
parameter, so the branch for a missing user throws. The save of the password is not awaited:
its rejection goes unnoticed. -/
def updateOne (hash : Value → Value) (fault : Nat → Bool) (store : Store) (id : Id)
    (body : Doc) : Handled :=
  if fault 0 then ⟨store, [], [.uncaught]⟩
  else
    match findById store.users id with
    | none => ⟨store, [], [.uncaught]⟩
    | some request_user =>
      if passwordChanges body request_user then
        let request_user1 := request_user.assign "password" (body.get "password")
        let store1 :=
          if fault 1 then store
          else { store with
            users := saveChange store.users id
              fun d => d.assign "password" ((body.get "password").map hash) }
        let updated_data := body.delete "password"
        let issued : List Event :=
          [.save id request_user1, .findByIdAndUpdate id updated_data]
        if fault 2 then ⟨store1, request_user1, issued ++ [.uncaught]⟩
        else
          ⟨{ store1 with users := findByIdAndUpdate store1.users id updated_data },
            request_user1, issued ++ [.respond 200]⟩
      else
        let issued : List Event := [.findByIdAndUpdate id body]
        if fault 1 then ⟨store, request_user, issued ++ [.uncaught]⟩
        else
          ⟨{ store with users := findByIdAndUpdate store.users id body }, request_user,
            issued ++ [.respond 200]⟩

/-! ## The managed-asset check as the specification words it -/

/-- The text of a URL after `scheme://`; the whole text when there is no scheme. -/
def afterScheme (whole : List Char) : List Char → List Char
  | ':' :: '/' :: '/' :: rest => rest
  | _ :: rest => afterScheme whole rest
  | [] => whole

/-- The path of a URL: what follows the host. -/
def urlPath (url : String) : List Char :=
  (afterScheme url.data url.data).dropWhile fun c => c != '/'

/-- The check as the specification words it, a path-prefix match: the path of the URL
starts with the namespace of the service. -/
def pathPrefixMatch (url : String) : Bool :=
  "/members-api/users_profiles/".data.isPrefixOf (urlPath url)

/-! ## Example stores -/

def demoStore : Store where
  users := fun i => if i = 1 then some [("password", .str "h1")] else if i = 2 then some [] else none
  addresses := [⟨10, 1⟩, ⟨11, 2⟩]
  companies := [⟨20, 1⟩]
  todos := [⟨30, 1⟩, ⟨31, 1⟩]
  favorites := [⟨40, 1⟩, ⟨41, 2⟩]
  carts := [⟨50, 1⟩, ⟨51, 2⟩]
  albums := [⟨60, 1⟩, ⟨61, 1⟩, ⟨62, 2⟩]
  photos := [⟨70, 60⟩, ⟨71, 60⟩, ⟨72, 62⟩]
  posts := [⟨80, 1⟩, ⟨81, 1⟩, ⟨82, 2⟩]
  comments := [⟨90, 80⟩, ⟨91, 80⟩, ⟨92, 82⟩]




/-- A store with two Favorites rows and two Cart rows of user 1. -/
def doubledStore : Store where
  users := fun i => if i = 1 then some [("password", .str "h1")] else none
  addresses := []
  companies := []
  todos := []
  favorites := [⟨40, 1⟩, ⟨41, 1⟩]
  carts := [⟨50, 1⟩, ⟨51, 1⟩]
  albums := []
  photos := []
  posts := []
  comments := []

/-- A photo URL on a third-party host that mentions the namespace in the middle of its path. -/
def mirrorUrl : String := "https://cdn.example.org/mirror/members-api/users_profiles/u1.png"

/-- A photo URL on a third-party host that does not mention the namespace. -/
def remoteUrl : String := "https://img.example.org/avatars/u1.png"

/-- A photo URL under the namespace of the service. -/
def managedUrl : String :=
  "https://res.cloudinary.com/demo/image/upload/v1/members-api/users_profiles/1.png"

/-- A store whose only user, 1, has the photo `url`. -/
def photoStore (url : String) : Store where
  users := fun i => if i = 1 then some [("photo", .str url), ("password", .str "h1")] else none
  addresses := []
  companies := []
  todos := []
  favorites := [⟨40, 1⟩]
  carts := [⟨50, 1⟩]
  albums := []
  photos := []
  posts := []
  comments := []

/-- The document of user 1 of `photoStore url` as the request carries it. -/
def photoUser (url : String) : Doc := [("photo", .str url), ("password", .str "h1")]

/-- A stand-in for the password check of the user model: plain comparison. -/
def plainMatch (user : Doc) (candidate : Option Value) : Option Bool :=
  some (candidate == user.get "password")

/-- A stand-in for the hashing of the user model. -/
def plainHash : Value → Value
  | .str s => .str ("#" ++ s)
  | v => v

/-- The store `demoStore` after the calls of `deleteOne` for user 1 that precede the first
deletion of photos. -/
def stalledStore : Store :=
  { demoStore with
    addresses := [⟨11, 2⟩]
    companies := []
    todos := []
    favorites := [⟨41, 2⟩]
    carts := [⟨51, 2⟩] }

/-- An update body with an empty password. -/
def emptyPasswordBody : Doc := [("password", .str ""), ("name", .str "Ann")]

/-- An update body with a new password. -/
def newPasswordBody : Doc := [("password", .str "pw"), ("name", .str "Ann")]

/-! ## The state after a deletion -/

/-- No row references `id`, directly or through an album or post that `id` owned in `s0`, and
the user record is gone. -/
def Clean (s0 : Store) (id : Id) (s : Store) : Prop :=
  (∀ r ∈ s.addresses, r.user ≠ id) ∧ (∀ r ∈ s.companies, r.user ≠ id) ∧
  (∀ r ∈ s.todos, r.user ≠ id) ∧ (∀ r ∈ s.albums, r.user ≠ id) ∧
  (∀ r ∈ s.posts, r.user ≠ id) ∧
  (∀ p ∈ s.photos, ∀ a ∈ s0.albums, a.user = id → p.album ≠ a._id) ∧
  (∀ c ∈ s.comments, ∀ a ∈ s0.posts, a.user = id → c.post ≠ a._id) ∧
  s.users id = none

instance (s0 : Store) (id : Id) (s : Store) : Decidable (Clean s0 id s) := by
  unfold Clean; infer_instance

/-! ## Reasoning about runs -/

theorem Holds.bind {α β : Type} {P : α → Prop} {Q : β → Prop} {E : Store → Prop}
    {r : Except Abort α} {g : α → Except Abort β}
    (h : Holds P E r) (hg : ∀ a, P a → Holds Q E (g a)) : Holds Q E (r >>= g) := by
  cases r with
  | error e => exact h
  | ok a => exact hg a h

theorem holds_call {E : Store → Prop} (fault : Nat → Bool) (k : Nat) (effect : Store → Store)
    {s : Store} (hE : E s) :
    Holds (fun s1 => s1 = effect s) E (call fault k effect s) := by
  unfold call
  split
  · exact hE
  · exact rfl

theorem holds_query {α : Type} {E : Store → Prop} (fault : Nat → Bool) (k : Nat) {s : Store}
    (value : α) (hE : E s) :
    Holds (fun v => v = value) E (query fault k s value) := by
  unfold query
  split
  · exact hE
  · exact rfl

theorem holds_forEach {α : Type} {E : Store → Prop} (fault : Nat → Bool)
    (body : α → Store → Store) (hbody : ∀ x s, E s → E (body x s)) :
    ∀ (xs : List α) (k : Nat) (s : Store), E s →
      Holds (fun s1 => s1 = xs.foldl (fun s x => body x s) s ∧ E s1) E
        (forEach fault body k xs s) := by
  intro xs
  induction xs with
  | nil => intro k s hE; exact ⟨rfl, hE⟩
  | cons x xs ih =>
    intro k s hE
    unfold forEach call
    split
    · rename_i a h
      split at h
      · cases h; exact hE
      · cases h
    · rename_i s1 h
      split at h
      · cases h
      · cases h
        exact ih (k + 1) (body x s) (hbody x s hE)

theorem mem_purge {α β : Type} (filter : α → β → Bool) (xs : List α) :
    ∀ (rows : List β) (r : β),
      r ∈ purge filter xs rows ↔ r ∈ rows ∧ ∀ x ∈ xs, filter x r = false := by
  induction xs with
  | nil => intro rows r; simp [purge]
  | cons x xs ih =>
    intro rows r
    have h := ih (deleteMany (filter x) rows) r
    simp only [purge, List.foldl_cons] at h ⊢
    rw [h]
    simp [deleteMany, and_assoc]

theorem foldl_photos (f : Owned → Photo → Bool) (xs : List Owned) :
    ∀ s : Store,
      xs.foldl (fun s x => { s with photos := deleteMany (f x) s.photos }) s
        = { s with photos := purge f xs s.photos } := by
  induction xs with
  | nil => intro s; rfl
  | cons x xs ih => intro s; simp [List.foldl_cons, ih, purge]

theorem foldl_comments (f : Owned → Comment → Bool) (xs : List Owned) :
    ∀ s : Store,
      xs.foldl (fun s x => { s with comments := deleteMany (f x) s.comments }) s
        = { s with comments := purge f xs s.comments } := by
  induction xs with
  | nil => intro s; rfl
  | cons x xs ih => intro s; simp [List.foldl_cons, ih, purge]

theorem Midway.refl (s : Store) (id : Id) : Midway s id s :=
  ⟨rfl, fun _ h _ => Or.inl h, fun _ h _ => Or.inl h, fun _ h => h, fun _ h => h⟩

/-- A write that leaves users, albums and posts alone and only removes photos and comments
keeps `Midway`. -/
theorem Midway.frame {s0 s s1 : Store} {id : Id} (h : Midway s0 id s)
    (hu : s1.users = s.users) (ha : s1.albums = s.albums) (hp : s1.posts = s.posts)
    (hph : ∀ p ∈ s1.photos, p ∈ s.photos) (hc : ∀ c ∈ s1.comments, c ∈ s.comments) :
    Midway s0 id s1 := by
  refine ⟨hu.trans h.users, ?_, ?_, fun p m => h.photos p (hph p m),
    fun c m => h.comments c (hc c m)⟩
  · intro a ha0 hau
    rcases h.albums a ha0 hau with h1 | h1
    · exact Or.inl (ha ▸ h1)
    · exact Or.inr fun p m => h1 p (hph p m)
  · intro a ha0 hau
    rcases h.posts a ha0 hau with h1 | h1
    · exact Or.inl (hp ▸ h1)
    · exact Or.inr fun c m => h1 c (hc c m)

/-- The guard `if (xs.length)` around a loop changes nothing: a loop over no rows issues
no call. -/
theorem forEach_guard {α : Type} (fault : Nat → Bool) (body : α → Store → Store) (k : Nat)
    (xs : List α) (s : Store) :
    (if xs.length ≠ 0 then forEach fault body k xs s else pure s) = forEach fault body k xs s := by
  cases xs with
  | nil => rfl
  | cons x xs => simp

/-- Every run of `deleteOne`: answering 200 means the user existed and the store is
`cascade`; stopping early leaves a `Midway` store. -/
theorem deleteOne_holds (fault : Nat → Bool) (s0 : Store) (id : Id) :
    Holds (fun s1 => (∃ u, s0.users id = some u) ∧ s1 = cascade s0 id) (Midway s0 id)
      (deleteOne fault s0 id) := by
  unfold deleteOne
  refine Holds.bind (holds_query fault 0 _ (Midway.refl s0 id)) ?_
  intro ru hru
  subst hru
  cases hu : findById s0.users id with
  | none => exact Midway.refl s0 id
  | some u =>
    have hex : ∃ u, s0.users id = some u := ⟨u, hu⟩
    simp only []
    refine Holds.bind (holds_call fault 1 _ (Midway.refl s0 id)) ?_
    intro s1 h1
    have p1 : Midway s0 id s1 := by
      subst h1; exact (Midway.refl s0 id).frame rfl rfl rfl (fun _ h => h) (fun _ h => h)
    refine Holds.bind (holds_call fault 2 _ p1) ?_
    intro s2 h2
    have p2 : Midway s0 id s2 := by
      subst h2; exact p1.frame rfl rfl rfl (fun _ h => h) (fun _ h => h)
    refine Holds.bind (holds_call fault 3 _ p2) ?_
    intro s3 h3
    have p3 : Midway s0 id s3 := by
      subst h3; exact p2.frame rfl rfl rfl (fun _ h => h) (fun _ h => h)
    refine Holds.bind (holds_call fault 4 _ p3) ?_
    intro s4 h4
    have p4 : Midway s0 id s4 := by
      subst h4; exact p3.frame rfl rfl rfl (fun _ h => h) (fun _ h => h)
    refine Holds.bind (holds_call fault 5 _ p4) ?_
    intro s5 h5
    have p5 : Midway s0 id s5 := by
      subst h5; exact p4.frame rfl rfl rfl (fun _ h => h) (fun _ h => h)
    refine Holds.bind (holds_query fault 6 _ p5) ?_
    intro albums halbums
    rw [forEach_guard]
    refine Holds.bind (holds_forEach fault _ ?_ albums 7 s5 p5) ?_
    · intro x s hs
      exact hs.frame rfl rfl rfl (fun p hp => by simp [deleteMany] at hp; exact hp.1)
        (fun _ h => h)
    intro s6 h6
    obtain ⟨h6, p6⟩ := h6
    rw [foldl_photos] at h6
    have ha5 : s5.albums = s0.albums := by subst h5 h4 h3 h2 h1; rfl
    have hp5 : s5.posts = s0.posts := by subst h5 h4 h3 h2 h1; rfl
    have hph5 : s5.photos = s0.photos := by subst h5 h4 h3 h2 h1; rfl
    have hc5 : s5.comments = s0.comments := by subst h5 h4 h3 h2 h1; rfl
    have p7 : Midway s0 id { s6 with albums := deleteMany (·.user == id) s6.albums } := by
      refine ⟨p6.users, ?_, p6.posts, p6.photos, p6.comments⟩
      intro a ha0 hau
      refine Or.inr ?_
      intro p hp
      rw [h6] at hp
      simp only [] at hp
      rw [mem_purge] at hp
      have := hp.2 a (by
        rw [halbums, ha5]
        simp [find, ha0, hau])
      simpa using this
    refine Holds.bind (holds_call fault (7 + albums.length) _ p6) ?_
    intro s7 h7
    rw [← h7] at p7
    refine Holds.bind (holds_query fault (8 + albums.length) _ p7) ?_
    intro posts hposts
    rw [forEach_guard]
    refine Holds.bind (holds_forEach fault _ ?_ posts (9 + albums.length) s7 p7) ?_
    · intro x s hs
      exact hs.frame rfl rfl rfl (fun _ h => h)
        (fun c hc => by simp [deleteMany] at hc; exact hc.1)
    intro s8 h8
    obtain ⟨h8, p8⟩ := h8
    rw [foldl_comments] at h8
    have hp7 : s7.posts = s0.posts := by subst h7 h6; exact hp5
    have hc7 : s7.comments = s0.comments := by subst h7 h6; exact hc5
    have p9 : Midway s0 id { s8 with posts := deleteMany (·.user == id) s8.posts } := by
      refine ⟨p8.users, p8.albums, ?_, p8.photos, p8.comments⟩
      intro a ha0 hau
      refine Or.inr ?_
      intro c hc
      rw [h8] at hc
      simp only [] at hc
      rw [mem_purge] at hc
      have := hc.2 a (by
        rw [hposts, hp7]
        simp [find, ha0, hau])
      simpa using this
    refine Holds.bind (holds_call fault (9 + albums.length + posts.length) _ p8) ?_
    intro s9 h9
    rw [← h9] at p9
    have hfin := holds_call fault (10 + albums.length + posts.length)
      (fun s => { s with users := findByIdAndDelete s.users id }) p9
    revert hfin
    cases call fault (10 + albums.length + posts.length)
      (fun s => { s with users := findByIdAndDelete s.users id }) s9 with
    | error e => exact fun h => h
    | ok s10 =>
      intro h10
      refine ⟨hex, ?_⟩
      have h10 : s10 = { s9 with users := findByIdAndDelete s9.users id } := h10
      subst h10 h9 h8 h7 hposts h6 halbums h5 h4 h3 h2 h1
      rfl


/-! ## `deleteOne`: what a run leaves behind -/

theorem forEach_noFault {α : Type} (body : α → Store → Store) :
    ∀ (xs : List α) (k : Nat) (s : Store),
      forEach noFault body k xs s = .ok (xs.foldl (fun s x => body x s) s) := by
  intro xs
  induction xs with
  | nil => intro k s; rfl
  | cons x xs ih => intro k s; simp [forEach, call, noFault, ih]

theorem guard_noFault {α : Type} (body : α → Store → Store) (xs : List α) (k : Nat)
    (s : Store) :
    (if xs.length ≠ 0 then forEach noFault body k xs s else pure s)
      = .ok (xs.foldl (fun s x => body x s) s) := by
  rw [forEach_guard, forEach_noFault]

/-- With no rejected call and an existing user, `deleteOne` answers 200. -/
theorem deleteOne_noFault (s : Store) (id : Id) (hu : (s.users id).isSome) :
    deleteOne noFault s id = .ok (cascade s id) := by
  have h := deleteOne_holds noFault s id
  obtain ⟨u, hu⟩ := Option.isSome_iff_exists.mp hu
  have hans : ∃ s1, deleteOne noFault s id = .ok s1 := by
    simp only [deleteOne, query, call, findById, hu, bind, Except.bind, guard_noFault]
    simp only [noFault, Bool.false_eq_true, if_false]
    exact ⟨_, rfl⟩
  obtain ⟨s1, hs1⟩ := hans
  rw [hs1] at h ⊢
  exact congrArg _ h.2

theorem deleteOne_ok {fault : Nat → Bool} {s : Store} {id : Id} {s1 : Store}
    (h : deleteOne fault s id = .ok s1) : (∃ u, s.users id = some u) ∧ s1 = cascade s id := by
  have := deleteOne_holds fault s id
  rw [h] at this
  exact this

theorem deleteOne_error {fault : Nat → Bool} {s : Store} {id : Id} {a : Abort}
    (h : deleteOne fault s id = .error a) : Midway s id a.store := by
  have := deleteOne_holds fault s id
  rw [h] at this
  exact this

theorem clean_cascade (s : Store) (id : Id) : Clean s id (cascade s id) := by
  refine ⟨?_, ?_, ?_, ?_, ?_, ?_, ?_, ?_⟩
  · intro r hr; simp [cascade, deleteMany] at hr; exact hr.2
  · intro r hr; simp [cascade, deleteMany] at hr; exact hr.2
  · intro r hr; simp [cascade, deleteMany] at hr; exact hr.2
  · intro r hr; simp [cascade, deleteMany] at hr; exact hr.2
  · intro r hr; simp [cascade, deleteMany] at hr; exact hr.2
  · intro p hp a ha hau
    simp only [cascade] at hp
    rw [mem_purge] at hp
    have := hp.2 a (by simp [find, ha, hau])
    simpa using this
  · intro c hc a ha hau
    simp only [cascade] at hc
    rw [mem_purge] at hc
    have := hc.2 a (by simp [find, ha, hau])
    simpa using this
  · simp [cascade, findByIdAndDelete]

/-- A retry from a `Midway` store that answers 200 is clean with respect to the store the
first run started from. -/
theorem clean_of_midway {s0 s1 : Store} {id : Id} (hp : Midway s0 id s1) :
    Clean s0 id (cascade s1 id) := by
  obtain ⟨h1, h2, h3, h4, h5, h6, h7, h8⟩ := clean_cascade s1 id
  refine ⟨h1, h2, h3, h4, h5, ?_, ?_, h8⟩
  · intro p hpm a ha hau
    rcases hp.albums a ha hau with h | h
    · exact h6 p hpm a h hau
    · refine h p ?_
      simp only [cascade] at hpm
      rw [mem_purge] at hpm
      exact hpm.1
  · intro c hcm a ha hau
    rcases hp.posts a ha hau with h | h
    · exact h7 c hcm a h hau
    · refine h c ?_
      simp only [cascade] at hcm
      rw [mem_purge] at hcm
      exact hcm.1

theorem eraseP_singleton {α : Type} (p : α → Bool) :
    ∀ rows : List α, (rows.filter p).length ≤ 1 → ∀ r ∈ rows.eraseP p, p r = false := by
  intro rows
  induction rows with
  | nil => intro _ r hr; simp at hr
  | cons x xs ih =>
    intro hlen r hr
    cases hx : p x with
    | true =>
      simp [List.filter_cons, hx] at hlen
      simp [List.eraseP_cons, hx] at hr
      have := hlen r hr
      simpa using this
    | false =>
      simp [List.filter_cons, hx] at hlen
      simp [List.eraseP_cons, hx] at hr
      rcases hr with rfl | hr
      · exact hx
      · exact ih hlen r hr

/-! ## Claims on `deleteOne` -/

/-- C1. For a user with a record, the run of `deleteOne` in which no call rejects answers 200,
and after every run that answers 200 no Address, Company, Todo, Album or Post row has
`user = id`, no Photo row references an album that `id` owned before the call, no Comment row
references a post that `id` owned before the call, and the user record is gone. -/
theorem deleteOne_cascades (s : Store) (id : Id) (hu : (s.users id).isSome) :
    deleteOne noFault s id = .ok (cascade s id) ∧
    ∀ (fault : Nat → Bool) (s1 : Store), deleteOne fault s id = .ok s1 → Clean s id s1 := by
  refine ⟨deleteOne_noFault s id hu, ?_⟩
  intro fault s1 h
  rw [(deleteOne_ok h).2]
  exact clean_cascade s id

theorem deleteOne_cascades_witness :
    (demoStore.users 1).isSome ∧
    (deleteOne noFault demoStore 1 = .ok (cascade demoStore 1) ∧
      ∀ (fault : Nat → Bool) (s1 : Store),
        deleteOne fault demoStore 1 = .ok s1 → Clean demoStore 1 s1) :=
  ⟨by decide, deleteOne_cascades demoStore 1 (by decide)⟩

/-- C2. When the lookup itself does not reject, `deleteOne` on an id with no user record stops
with `next('User not found', 404)` and leaves the store as it was; in particular this is how
a second `deleteOne` ends on the store left by a first one that answered 200. -/
theorem deleteOne_notFound (fault : Nat → Bool) (s : Store) (id : Id)
    (hlookup : fault 0 = false) :
    (s.users id = none →
      deleteOne fault s id = .error ⟨s, .next "User not found" 404⟩) ∧
    (∀ (fault0 : Nat → Bool) (s0 : Store), deleteOne fault0 s0 id = .ok s →
      deleteOne fault s id = .error ⟨s, .next "User not found" 404⟩) := by
  have key : s.users id = none →
      deleteOne fault s id = .error ⟨s, .next "User not found" 404⟩ := by
    intro hnone
    simp [deleteOne, query, hlookup, findById, hnone, bind, Except.bind, throw, throwThe,
      MonadExceptOf.throw]
  refine ⟨key, ?_⟩
  intro fault0 s0 h
  apply key
  rw [(deleteOne_ok h).2]
  simp [cascade, findByIdAndDelete]

theorem deleteOne_notFound_witness :
    noFault 0 = false ∧
    ((cascade demoStore 1).users 1 = none →
      deleteOne noFault (cascade demoStore 1) 1
        = .error ⟨cascade demoStore 1, .next "User not found" 404⟩) ∧
    (∀ (fault0 : Nat → Bool) (s0 : Store), deleteOne fault0 s0 1 = .ok (cascade demoStore 1) →
      deleteOne noFault (cascade demoStore 1) 1
        = .error ⟨cascade demoStore 1, .next "User not found" 404⟩) :=
  ⟨rfl, deleteOne_notFound noFault (cascade demoStore 1) 1 rfl⟩

/-- C5. When a first run of `deleteOne` for a user with a record stops at a rejected call, the
user record is as before, the retry in which no call rejects answers 200, and every retry that
answers 200 leaves no Address, Company, Todo, Album or Post row of the user, no Photo or
Comment row of an album or post the user owned before the first run, and no user record. -/
theorem deleteOne_retry (fault1 : Nat → Bool) (s0 : Store) (id : Id) (a : Abort)
    (hu : (s0.users id).isSome) (hfail : deleteOne fault1 s0 id = .error a) :
    a.store.users id = s0.users id ∧
    deleteOne noFault a.store id = .ok (cascade a.store id) ∧
    ∀ (fault2 : Nat → Bool) (s2 : Store),
      deleteOne fault2 a.store id = .ok s2 → Clean s0 id s2 := by
  have hp := deleteOne_error hfail
  have hsame : a.store.users id = s0.users id := by rw [hp.users]
  refine ⟨hsame, deleteOne_noFault a.store id (by rw [hsame]; exact hu), ?_⟩
  intro fault2 s2 h
  rw [(deleteOne_ok h).2]
  exact clean_of_midway hp

theorem deleteOne_retry_witness :
    (demoStore.users 1).isSome ∧
    deleteOne (failAt 7) demoStore 1 = .error ⟨stalledStore, .rejected 7⟩ ∧
    (stalledStore.users 1 = demoStore.users 1 ∧
    deleteOne noFault stalledStore 1 = .ok (cascade stalledStore 1) ∧
    ∀ (fault2 : Nat → Bool) (s2 : Store),
      deleteOne fault2 stalledStore 1 = .ok s2 → Clean demoStore 1 s2) :=
  ⟨by decide, rfl,
    deleteOne_retry (failAt 7) demoStore 1 ⟨stalledStore, .rejected 7⟩ (by decide) rfl⟩

/-- C6, as amended. When the user has at most one Favorites row and at most one Cart row,
after every run of `deleteOne` that answers 200 no Favorites row and no Cart row has
`user = id`. -/
theorem deleteOne_singletons (fault : Nat → Bool) (s : Store) (id : Id) (s1 : Store)
    (hfav : (find (·.user == id) s.favorites).length ≤ 1)
    (hcart : (find (·.user == id) s.carts).length ≤ 1)
    (hdone : deleteOne fault s id = .ok s1) :
    (∀ r ∈ s1.favorites, r.user ≠ id) ∧ (∀ r ∈ s1.carts, r.user ≠ id) := by
  rw [(deleteOne_ok hdone).2]
  constructor
  · intro r hr
    have := eraseP_singleton _ _ hfav r hr
    simpa using this
  · intro r hr
    have := eraseP_singleton _ _ hcart r hr
    simpa using this

theorem deleteOne_singletons_witness :
    (find (·.user == 1) demoStore.favorites).length ≤ 1 ∧
    (find (·.user == 1) demoStore.carts).length ≤ 1 ∧
    deleteOne noFault demoStore 1 = .ok (cascade demoStore 1) ∧
    ((∀ r ∈ (cascade demoStore 1).favorites, r.user ≠ 1) ∧
      (∀ r ∈ (cascade demoStore 1).carts, r.user ≠ 1)) :=
  ⟨by decide, by decide, deleteOne_noFault demoStore 1 (by decide),
    deleteOne_singletons noFault demoStore 1 (cascade demoStore 1) (by decide) (by decide)
      (deleteOne_noFault demoStore 1 (by decide))⟩

/-- C6, the claim as stated fails: user 1 has a record and two Favorites rows and two Cart
rows; `deleteOne` answers 200 and one Favorites row and one Cart row of user 1 remain. -/
theorem deleteOne_keeps_second_singleton :
    (doubledStore.users 1).isSome ∧
    answered (deleteOne noFault doubledStore 1) = true ∧
    (storeAfter (deleteOne noFault doubledStore 1)).favorites = [⟨41, 1⟩] ∧
    (storeAfter (deleteOne noFault doubledStore 1)).carts = [⟨51, 1⟩] := by
  decide


/-! ## Documents -/

theorem lookup_cons_ne {key k : String} (v : Value) (rest : Doc) (h : key ≠ k) :
    List.lookup key ((k, v) :: rest) = List.lookup key rest := by
  have hb : (key == k) = false := by simpa using h
  simp only [List.lookup_cons, hb]

theorem lookup_cons_self (key : String) (v : Value) (rest : Doc) :
    List.lookup key ((key, v) :: rest) = some v := by
  simp only [List.lookup_cons, beq_self_eq_true]

theorem Doc.get_delete (doc : Doc) (key : String) : (doc.delete key).get key = none := by
  induction doc with
  | nil => rfl
  | cons kv rest ih =>
    obtain ⟨k, v⟩ := kv
    unfold Doc.delete Doc.get at ih ⊢
    by_cases h : k = key
    · have hb : (k != key) = false := by simp [h]
      rw [List.filter_cons_of_neg (by simp [h])]
      exact ih
    · rw [List.filter_cons_of_pos (by simp [h]), lookup_cons_ne v _ (fun e => h e.symm)]
      exact ih

theorem Doc.get_delete_ne (doc : Doc) {k key : String} (h : k ≠ key) :
    (doc.delete k).get key = doc.get key := by
  induction doc with
  | nil => rfl
  | cons kv rest ih =>
    obtain ⟨k1, v⟩ := kv
    unfold Doc.delete Doc.get at ih ⊢
    by_cases h1 : k1 = k
    · rw [List.filter_cons_of_neg (by simp [h1]),
        lookup_cons_ne v _ (fun e => h (h1.symm.trans e.symm))]
      exact ih
    · rw [List.filter_cons_of_pos (by simp [h1])]
      by_cases h3 : key = k1
      · subst h3
        rw [lookup_cons_self, lookup_cons_self]
      · rw [lookup_cons_ne v _ h3, lookup_cons_ne v _ h3]
        exact ih

theorem Doc.get_set (doc : Doc) (key : String) (v : Value) : (doc.set key v).get key = some v :=
  lookup_cons_self key v _

theorem Doc.get_set_ne (doc : Doc) {k key : String} (v : Value) (h : k ≠ key) :
    (doc.set k v).get key = doc.get key := by
  have := Doc.get_delete_ne doc h
  unfold Doc.get at this ⊢
  unfold Doc.set
  rw [lookup_cons_ne v _ (fun e => h e.symm)]
  exact this

theorem Doc.get_merge (patch : Doc) (key : String) :
    ∀ doc : Doc, patch.get key = none → (doc.merge patch).get key = doc.get key := by
  induction patch with
  | nil => intro doc _; rfl
  | cons kv rest ih =>
    intro doc h
    obtain ⟨k, v⟩ := kv
    have hk : k ≠ key := by
      intro e
      subst e
      rw [Doc.get, lookup_cons_self] at h
      cases h
    have hrest : Doc.get rest key = none := by
      rw [Doc.get, lookup_cons_ne v _ (fun e => hk e.symm)] at h
      exact h
    have := ih (doc.set k v) hrest
    simp only [Doc.merge, List.foldl_cons] at this ⊢
    rw [this, Doc.get_set_ne doc v hk]

theorem destroyed_eq_false {result : Option Value} (h : result ≠ some (.str "ok")) :
    destroyed result = false := by
  simp [destroyed, h]

/-! ## Claims on the profile image -/

/-- C3, the code at the failing input: user 1 has a photo, the upload rejects, the handler
calls `next` with the upload error and then still issues the update with `photo: null`, after
which the stored photo is `null`. -/
theorem changeProfileImage_failed_upload_resets_photo :
    ((photoStore remoteUrl).users 1).bind (·.get "photo") = some (.str remoteUrl) ∧
    ((changeProfileImage none noFault (photoStore remoteUrl) 1
        (photoUser remoteUrl)).store.users 1).bind (·.get "photo") = some .null ∧
    (changeProfileImage none noFault (photoStore remoteUrl) 1 (photoUser remoteUrl)).events
      = [.upload "1", .next "The user profile image could not be uploaded to the cloud" 400,
          .findByIdAndUpdate 1 [("photo", .null)], .respond 200] := by
  decide

/-- C4, as amended. When the photo of the user is a string that does not contain
`/members-api/users_profiles/` anywhere, `deleteProfileImage` issues no destroy call and clears
the photo of the in-memory user; when the save does not reject it answers 200 and the stored
user has no photo either. -/
theorem deleteProfileImage_unmanaged (destroy : Destroy) (fault : Nat → Bool) (store : Store)
    (uid : Id) (user : Doc) (url : String) (hphoto : user.get "photo" = some (.str url))
    (hfree : includes url "/members-api/users_profiles/" = false) :
    (∀ public_id, Event.destroy public_id ∉
      (deleteProfileImage destroy fault store uid user).events) ∧
    (deleteProfileImage destroy fault store uid user).user.get "photo" = none ∧
    (fault 0 = false →
      (deleteProfileImage destroy fault store uid user).events
        = [.save uid (user.delete "photo"), .respond 200] ∧
      ((deleteProfileImage destroy fault store uid user).store.users uid).bind (·.get "photo")
        = none) := by
  have hm : managedPhoto user = some false := by simp [managedPhoto, hphoto, hfree]
  simp only [deleteProfileImage, hm, clearPhoto, Doc.assign]
  refine ⟨?_, ?_, ?_⟩
  · intro public_id
    split <;> simp
  · split <;> exact Doc.get_delete user "photo"
  · intro h0
    simp only [h0, Bool.false_eq_true, if_false, List.nil_append, true_and]
    simp only [saveChange, if_true]
    cases store.users uid with
    | none => rfl
    | some d => exact Doc.get_delete d "photo"

theorem deleteProfileImage_unmanaged_witness :
    (photoUser remoteUrl).get "photo" = some (.str remoteUrl) ∧
    includes remoteUrl "/members-api/users_profiles/" = false ∧
    ((∀ public_id, Event.destroy public_id ∉
      (deleteProfileImage .rejected noFault (photoStore remoteUrl) 1
        (photoUser remoteUrl)).events) ∧
    (deleteProfileImage .rejected noFault (photoStore remoteUrl) 1
        (photoUser remoteUrl)).user.get "photo" = none ∧
    (noFault 0 = false →
      (deleteProfileImage .rejected noFault (photoStore remoteUrl) 1
          (photoUser remoteUrl)).events
        = [.save 1 ((photoUser remoteUrl).delete "photo"), .respond 200] ∧
      ((deleteProfileImage .rejected noFault (photoStore remoteUrl) 1
          (photoUser remoteUrl)).store.users 1).bind (·.get "photo") = none)) :=
  ⟨by decide, by decide,
    deleteProfileImage_unmanaged .rejected noFault (photoStore remoteUrl) 1
      (photoUser remoteUrl) remoteUrl (by decide) (by decide)⟩

/-- C4, the claim as stated fails: the photo of user 1 is on a third-party host, its path does
not start with the namespace and neither does the URL, yet the URL contains the namespace, so
`deleteProfileImage` issues a destroy call for the asset of user 1. -/
theorem deleteProfileImage_destroys_on_infix :
    (photoUser mirrorUrl).get "photo" = some (.str mirrorUrl) ∧
    pathPrefixMatch mirrorUrl = false ∧
    "/members-api/users_profiles/".data.isPrefixOf mirrorUrl.data = false ∧
    (deleteProfileImage (.resolved (some (.str "ok"))) noFault (photoStore mirrorUrl) 1
        (photoUser mirrorUrl)).events
      = [.destroy "members-api/users_profiles/1", .save 1 [("password", .str "h1")],
          .respond 200] := by
  decide

/-- C9. When the photo of the user passes the managed-asset check and the destroy call
resolves with a result other than `'ok'`, `deleteProfileImage` stops with `next(..., 503)`
right after the destroy call: no save is issued, and the store and the in-memory user are as
before. -/
theorem deleteProfileImage_unconfirmed (fault : Nat → Bool) (store : Store) (uid : Id)
    (user : Doc) (result : Option Value) (hmanaged : managedPhoto user = some true)
    (hnot : result ≠ some (.str "ok")) :
    (deleteProfileImage (.resolved result) fault store uid user).events
      = [.destroy ("members-api/users_profiles/" ++ toString uid),
          .next ("The user profile image could not be deleted with public id of "
            ++ toString uid) 503] ∧
    (deleteProfileImage (.resolved result) fault store uid user).store = store ∧
    (deleteProfileImage (.resolved result) fault store uid user).user = user := by
  simp [deleteProfileImage, hmanaged, destroyed_eq_false hnot]

theorem deleteProfileImage_unconfirmed_witness :
    managedPhoto (photoUser managedUrl) = some true ∧
    some (Value.str "not found") ≠ some (.str "ok") ∧
    ((deleteProfileImage (.resolved (some (.str "not found"))) noFault (photoStore managedUrl) 1
        (photoUser managedUrl)).events
      = [.destroy ("members-api/users_profiles/" ++ toString 1),
          .next ("The user profile image could not be deleted with public id of "
            ++ toString 1) 503] ∧
    (deleteProfileImage (.resolved (some (.str "not found"))) noFault (photoStore managedUrl) 1
        (photoUser managedUrl)).store = photoStore managedUrl ∧
    (deleteProfileImage (.resolved (some (.str "not found"))) noFault (photoStore managedUrl) 1
        (photoUser managedUrl)).user = photoUser managedUrl) :=
  ⟨by decide, by decide,
    deleteProfileImage_unconfirmed noFault (photoStore managedUrl) 1 (photoUser managedUrl)
      (some (.str "not found")) (by decide) (by decide)⟩

/-! ## Claims on passwords -/

/-- C10. When `matchPassword` answers that the current password does not match,
`changePassword` stops with `next('Password is incorrect', 400)`: no save is issued, and the
store and the in-memory user, its password included, are as before. -/
theorem changePassword_mismatch (matchPassword : Doc → Option Value → Option Bool)
    (hash : Value → Value) (fault : Nat → Bool) (store : Store) (uid : Id) (user body : Doc)
    (hwrong : matchPassword user (body.get "currentPassword") = some false) :
    (changePassword matchPassword hash fault store uid user body).events
      = [.next "Password is incorrect" 400] ∧
    (changePassword matchPassword hash fault store uid user body).store = store ∧
    (changePassword matchPassword hash fault store uid user body).user = user := by
  simp [changePassword, hwrong]

theorem changePassword_mismatch_witness :
    plainMatch (photoUser remoteUrl)
      (Doc.get [("currentPassword", .str "guess"), ("newPassword", .str "next")]
        "currentPassword") = some false ∧
    ((changePassword plainMatch plainHash noFault (photoStore remoteUrl) 1
        (photoUser remoteUrl)
        [("currentPassword", .str "guess"), ("newPassword", .str "next")]).events
      = [.next "Password is incorrect" 400] ∧
    (changePassword plainMatch plainHash noFault (photoStore remoteUrl) 1
        (photoUser remoteUrl)
        [("currentPassword", .str "guess"), ("newPassword", .str "next")]).store
      = photoStore remoteUrl ∧
    (changePassword plainMatch plainHash noFault (photoStore remoteUrl) 1
        (photoUser remoteUrl)
        [("currentPassword", .str "guess"), ("newPassword", .str "next")]).user
      = photoUser remoteUrl) :=
  ⟨by decide,
    changePassword_mismatch plainMatch plainHash noFault (photoStore remoteUrl) 1
      (photoUser remoteUrl) [("currentPassword", .str "guess"), ("newPassword", .str "next")]
      (by decide)⟩

/-- C7, as amended. For an existing user and a body whose password is truthy and differs from
the stored one, `updateOne` saves the user document with the password assigned and then issues
the bulk update with the body without its password field; when neither call rejects, the
stored password is the one the save path produces. -/
theorem updateOne_splits_password (hash : Value → Value) (fault : Nat → Bool) (store : Store)
    (id : Id) (body request_user : Doc) (v : Value) (hlookup : fault 0 = false)
    (huser : store.users id = some request_user) (hpw : body.get "password" = some v)
    (htruthy : v.truthy = true) (hdiff : some v ≠ request_user.get "password") :
    (updateOne hash fault store id body).events.take 2
      = [.save id (request_user.set "password" v),
          .findByIdAndUpdate id (body.delete "password")] ∧
    (body.delete "password").get "password" = none ∧
    (fault 1 = false → fault 2 = false →
      ((updateOne hash fault store id body).store.users id).bind (·.get "password")
        = some (hash v)) := by
  have hc : passwordChanges body request_user = true := by
    simp [passwordChanges, hpw, truthy?, htruthy, hdiff]
  refine ⟨?_, Doc.get_delete body "password", ?_⟩
  · simp only [updateOne, hlookup, findById, huser, hc, hpw, Doc.assign, Bool.false_eq_true,
      if_false, if_true]
    cases fault 2 <;> simp
  · intro h1 h2
    simp only [updateOne, hlookup, findById, huser, hc, hpw, Doc.assign, h1, h2,
      Bool.false_eq_true, if_false, if_true, findByIdAndUpdate, saveChange, Option.map_some',
      Option.bind_some]
    show ((request_user.set "password" (hash v)).merge (body.delete "password")).get "password"
      = some (hash v)
    rw [Doc.get_merge _ _ _ (Doc.get_delete body "password")]
    exact Doc.get_set request_user "password" (hash v)

theorem updateOne_splits_password_witness :
    noFault 0 = false ∧
    (photoStore remoteUrl).users 1 = some (photoUser remoteUrl) ∧
    newPasswordBody.get "password" = some (.str "pw") ∧
    (Value.str "pw").truthy = true ∧
    some (Value.str "pw") ≠ (photoUser remoteUrl).get "password" ∧
    ((updateOne plainHash noFault (photoStore remoteUrl) 1 newPasswordBody).events.take 2
      = [.save 1 ((photoUser remoteUrl).set "password" (.str "pw")),
          .findByIdAndUpdate 1 (newPasswordBody.delete "password")] ∧
    (newPasswordBody.delete "password").get "password" = none ∧
    (noFault 1 = false → noFault 2 = false →
      ((updateOne plainHash noFault (photoStore remoteUrl) 1
          newPasswordBody).store.users 1).bind (·.get "password")
        = some (plainHash (.str "pw")))) :=
  ⟨rfl, rfl, by decide, by decide, by decide,
    updateOne_splits_password plainHash noFault (photoStore remoteUrl) 1 newPasswordBody
      (photoUser remoteUrl) (.str "pw") rfl rfl (by decide) (by decide) (by decide)⟩

/-- C7, the claim as stated fails: user 1 exists, the body has a password field, the empty
string, which differs from the stored password, and `updateOne` issues no save and passes the
body with its password field to the bulk update. -/
theorem updateOne_keeps_empty_password :
    (photoStore remoteUrl).users 1 = some (photoUser remoteUrl) ∧
    emptyPasswordBody.get "password" = some (.str "") ∧
    emptyPasswordBody.get "password" ≠ (photoUser remoteUrl).get "password" ∧
    (updateOne plainHash noFault (photoStore remoteUrl) 1 emptyPasswordBody).events
      = [.findByIdAndUpdate 1 [("password", .str ""), ("name", .str "Ann")], .respond 200] :=
  ⟨rfl, by decide, by decide, by decide⟩

/-! ## Claims on `create` -/

/-- C8. When `create` answers 200 for a new user id that no Favorites row and no Cart row
referenced before, afterwards exactly one Favorites row and exactly one Cart row reference
it, and the user is stored. -/
theorem create_provisions (persisted : Doc → Doc) (fault : Nat → Bool) (newId favId cartId : Id)
    (store : Store) (body : Doc) (s1 : Store)
    (hfav : ∀ r ∈ store.favorites, r.user ≠ newId)
    (hcart : ∀ r ∈ store.carts, r.user ≠ newId)
    (hdone : create persisted fault newId favId cartId store body = .ok s1) :
    (find (·.user == newId) s1.favorites).length = 1 ∧
    (find (·.user == newId) s1.carts).length = 1 ∧
    s1.users newId = some (persisted body) := by
  have hf : store.favorites.filter (·.user == newId) = [] := by
    rw [List.filter_eq_nil_iff]
    intro r hr
    simpa using hfav r hr
  have hc : store.carts.filter (·.user == newId) = [] := by
    rw [List.filter_eq_nil_iff]
    intro r hr
    simpa using hcart r hr
  unfold create at hdone
  split at hdone
  · cases hdone
  · simp only [] at hdone
    split at hdone
    · cases hdone
    · split at hdone
      · cases hdone
      · cases hdone
        simp [find, createRow, List.filter_append, hf, hc]

theorem create_provisions_witness :
    (∀ r ∈ demoStore.favorites, r.user ≠ 3) ∧
    (∀ r ∈ demoStore.carts, r.user ≠ 3) ∧
    answered (create id noFault 3 42 52 demoStore newPasswordBody) = true ∧
    ((find (·.user == 3) (storeAfter (create id noFault 3 42 52 demoStore
        newPasswordBody)).favorites).length = 1 ∧
    (find (·.user == 3) (storeAfter (create id noFault 3 42 52 demoStore
        newPasswordBody)).carts).length = 1 ∧
    (storeAfter (create id noFault 3 42 52 demoStore newPasswordBody)).users 3
      = some (id newPasswordBody)) :=
  ⟨by decide, by decide, by decide,
    create_provisions id noFault 3 42 52 demoStore newPasswordBody _ (by decide) (by decide)
      rfl⟩

end MembersApi
